import Mathlib

/-!
Shallow embedding of the poufmaker REST backend (Next.js route handlers over
Prisma). Each HTTP handler body is translated into a pure Lean function over
an explicit database state `DB`. Conventions:

* `tokenHeader : Option String` models `request.headers.get('authorization')?.split(' ')[1]`.
* `verify : String → Option DecodedToken` models `verifyToken` (jwt.verify,
  returning null on any malformed/expired/mis-signed token); it is a parameter
  because the JWT library is an external collaborator.
* JSON request bodies are records of `Option` fields: `none` models a field
  that is `undefined` in the parsed JSON.
* JavaScript truthiness on strings (`if (s)`) is `some s` with `s ≠ ""`;
  on numbers, `0` is falsy (monetary amounts are modelled as `Int`; `parseFloat`
  on an already-numeric value is the identity).
* Prisma calls become list operations on `DB`: `findUnique`/`findFirst` are
  `List.find?`, `update`/`updateMany` are `List.map` guarded on the row
  predicate, `delete`/`deleteMany` are `List.filter` with the negated row
  predicate, `create` conses the new row. UUID primary-key generation is
  modelled by a `newId` parameter; the database's uniqueness guarantee becomes
  a freshness side condition where it matters.
* Each handler returns `Except ErrResp α`; an `ErrResp` carries the HTTP
  status code and the JSON error message the handler writes. An uncaught
  exception (the `catch` branch) is the 500 response.
* Timestamps (`createdAt`, `updatedAt`, `new Date()`) are `Nat` ticks; the
  current time is a `now` parameter.
-/

/-- HTTP error response: status code plus the error message string. -/
structure ErrResp where
  status : Nat
  msg : String
deriving Repr, DecidableEq

/-- Result of `verifyToken`: the decoded JWT payload (userId and role). -/
structure DecodedToken where
  userId : String
  role : String
deriving Repr, DecidableEq

/-- Row of the `bids` table (fields used by the handlers). -/
structure Bid where
  id : String
  productId : String
  upholstererId : String
  amount : Int
  notes : Option String
  status : String
deriving Repr, DecidableEq

/-- Row of the `products` table (fields used by the handlers). -/
structure Product where
  id : String
  creatorId : String
  title : String
  description : Option String
  price : Option Int
  imageUrl : Option String
  status : String
deriving Repr, DecidableEq

/-- Row of the `conversations` table. -/
structure Conversation where
  id : String
  userId : Option String
  userName : Option String
  userPhone : Option String
  updatedAt : Nat
deriving Repr, DecidableEq

/-- Row of the `messages` table. -/
structure Message where
  id : String
  conversationId : String
  content : String
  isUser : Bool
  createdAt : Nat
deriving Repr, DecidableEq

/-- The relational store the Prisma client talks to. -/
structure DB where
  products : List Product
  bids : List Bid
  conversations : List Conversation
  messages : List Message
deriving Repr, DecidableEq

/-- JS truthiness of an optional string field: present and non-empty. -/
def truthyStr : Option String → Bool
  | some s => s ≠ ""
  | none => false

/-- `isUpholsterer` from lib/auth.ts: `role === 'upholsterer'`. -/
def isUpholsterer (role : String) : Bool :=
  role == "upholsterer"

/-- `prisma.bids.findUnique({ where: { Id: id } })`. -/
def findBid (db : DB) (id : String) : Option Bid :=
  db.bids.find? (fun b => b.id == id)

/-- `prisma.products.findUnique({ where: { Id: id } })`. -/
def findProduct (db : DB) (id : String) : Option Product :=
  db.products.find? (fun p => p.id == id)

/-- `prisma.conversations.findUnique({ where: { Id: id } })`. -/
def findConversation (db : DB) (id : String) : Option Conversation :=
  db.conversations.find? (fun c => c.id == id)

/- Error responses written by the handlers, verbatim status and message. -/

def errTokenRequired : ErrResp := ⟨401, "Authorization token required"⟩
def errInvalidToken : ErrResp := ⟨401, "Invalid token"⟩
def errBidNotFound : ErrResp := ⟨404, "Bid not found"⟩
def errNotAuthorizedUpdateBid : ErrResp := ⟨401, "Not authorized to update this bid"⟩
def errNoValidFields : ErrResp := ⟨400, "No valid fields to update"⟩
def errOnlyUpholsterers : ErrResp := ⟨401, "Only upholsterers can create bids"⟩
def errProductIdAmountRequired : ErrResp := ⟨400, "Product ID and amount are required"⟩
def errProductNotFound : ErrResp := ⟨404, "Product not found"⟩
def errProductNotAvailable : ErrResp := ⟨400, "Product is not available for bidding"⟩
def errAlreadyBid : ErrResp := ⟨400, "You have already bid on this product"⟩
def errNotAuthorizedDeleteBid : ErrResp := ⟨401, "Not authorized to delete this bid"⟩
def errConversationNotFound : ErrResp := ⟨404, "Conversation not found"⟩
def errNotAuthorizedDeleteConversation : ErrResp := ⟨401, "Not authorized to delete this conversation"⟩
def errMessageContentRequired : ErrResp := ⟨400, "Message content is required"⟩
def errInitialMessageRequired : ErrResp := ⟨400, "Initial message is required"⟩
def errNotAuthorizedUpdateProduct : ErrResp := ⟨401, "Not authorized to update this product"⟩
def errInternal : ErrResp := ⟨500, "Internal server error"⟩

/-! ## Bid creation: POST /api/bids -/

/-- Parsed JSON body of POST /api/bids: `{ productId, amount, notes }`. -/
structure CreateBidBody where
  productId : String
  amount : Int
  notes : Option String
deriving Repr, DecidableEq

/-- The row inserted by a successful createBid (the `bid` object passed to
`prisma.bids.create`, status fixed to `pending`). -/
def newPendingBid (body : CreateBidBody) (uid newId : String) : Bid :=
  ⟨newId, body.productId, uid, body.amount, body.notes, "pending"⟩

/-- POST /api/bids handler. Checks bearer token, upholsterer role, required
fields (`!productId || !amount`, JS-falsy), product existence, product status
`ai-generated`, and absence of a prior bid by the same upholsterer on the
product (`findFirst`), then inserts a bid with status `pending`. Returns the
new state and the created bid. `newId` models the DB-generated UUID. -/
def createBid (verify : String → Option DecodedToken) (tokenHeader : Option String)
    (body : CreateBidBody) (newId : String) (db : DB) : Except ErrResp (DB × Bid) :=
  match tokenHeader with
  | none => .error errTokenRequired
  | some token =>
  match verify token with
  | none => .error errInvalidToken
  | some decoded =>
  if ¬ isUpholsterer decoded.role then .error errOnlyUpholsterers
  else if body.productId == "" || body.amount == 0 then .error errProductIdAmountRequired
  else
  match findProduct db body.productId with
  | none => .error errProductNotFound
  | some product =>
  if product.status ≠ "ai-generated" then .error errProductNotAvailable
  else if (db.bids.find? (fun b =>
      b.productId == body.productId && b.upholstererId == decoded.userId)).isSome then
    .error errAlreadyBid
  else
    .ok ({ db with bids := newPendingBid body decoded.userId newId :: db.bids },
         newPendingBid body decoded.userId newId)

/-! ## Bid update: PUT /api/bids/[id] -/

/-- Parsed JSON body of PUT /api/bids/[id]: `{ amount, notes, status }`,
each possibly `undefined`. -/
structure BidUpdateBody where
  amount : Option Int
  notes : Option String
  status : Option String
deriving Repr, DecidableEq

/-- The `updateData` object accumulated by the handler: which columns the
`prisma.bids.update` call will set. -/
structure BidUpdateData where
  amount : Option Int
  notes : Option String
  status : Option String
deriving Repr, DecidableEq

/-- `Object.keys(updateData).length === 0`. -/
def emptyUpdate (u : BidUpdateData) : Bool :=
  u.amount.isNone && u.notes.isNone && u.status.isNone

/-- The field-scoping logic of the PUT handler: the bid's own upholsterer may
set amount/notes; otherwise the product creator may set status (only when the
payload status is truthy); any other principal is rejected (`none`). -/
def bidScopeUpdate (decoded : DecodedToken) (bid : Bid) (creatorId : String)
    (body : BidUpdateBody) : Option BidUpdateData :=
  if bid.upholstererId == decoded.userId then
    some { amount := body.amount, notes := body.notes, status := none }
  else if creatorId == decoded.userId then
    some { amount := none, notes := none,
           status := if truthyStr body.status then body.status else none }
  else none

/-- Apply an `updateData` object to one bid row. -/
def applyBidUpdate (u : BidUpdateData) (b : Bid) : Bid :=
  { b with
    amount := u.amount.getD b.amount,
    notes := match u.notes with | some n => some n | none => b.notes,
    status := u.status.getD b.status }

/-- `prisma.bids.update({ where: { Id: id }, data: upd })` on the store. -/
def applyBidUpdates (id : String) (u : BidUpdateData) (db : DB) : DB :=
  { db with bids := db.bids.map (fun b => if b.id == id then applyBidUpdate u b else b) }

/-- `prisma.bids.updateMany({ where: { productId, Id: { not: id } }, data:
{ status: 'rejected' } })`: force every other bid on the product to rejected. -/
def rejectSiblings (db : DB) (productId targetId : String) : DB :=
  { db with bids := db.bids.map (fun b =>
      if b.productId == productId && !(b.id == targetId) then
        { b with status := "rejected" }
      else b) }

/-- PUT /api/bids/[id] handler, run to completion. After the target row update,
the handler checks the request payload (`status === 'accepted'`) — not the
persisted row — and, when it matches, rejects all sibling bids. -/
def updateBid (verify : String → Option DecodedToken) (tokenHeader : Option String)
    (id : String) (body : BidUpdateBody) (db : DB) : Except ErrResp DB :=
  match tokenHeader with
  | none => .error errTokenRequired
  | some token =>
  match verify token with
  | none => .error errInvalidToken
  | some decoded =>
  match findBid db id with
  | none => .error errBidNotFound
  | some bid =>
  match findProduct db bid.productId with
  | none => .error errInternal
  | some product =>
  match bidScopeUpdate decoded bid product.creatorId body with
  | none => .error errNotAuthorizedUpdateBid
  | some upd =>
  if emptyUpdate upd then .error errNoValidFields
  else if body.status == some "accepted" then
    .ok (rejectSiblings (applyBidUpdates id upd db) bid.productId id)
  else
    .ok (applyBidUpdates id upd db)

/-- The state after the `prisma.bids.update` call of the PUT handler commits
but before the sibling `updateMany` runs. The two calls are two separate
sequential awaits with no surrounding `prisma.$transaction` (contrast the
DELETE conversations handler and the message POST handler, which do use one),
so if the second call throws, this state is what remains persisted. -/
def updateBidFirstWriteOnly (verify : String → Option DecodedToken)
    (tokenHeader : Option String) (id : String) (body : BidUpdateBody)
    (db : DB) : Except ErrResp DB :=
  match tokenHeader with
  | none => .error errTokenRequired
  | some token =>
  match verify token with
  | none => .error errInvalidToken
  | some decoded =>
  match findBid db id with
  | none => .error errBidNotFound
  | some bid =>
  match findProduct db bid.productId with
  | none => .error errInternal
  | some product =>
  match bidScopeUpdate decoded bid product.creatorId body with
  | none => .error errNotAuthorizedUpdateBid
  | some upd =>
  if emptyUpdate upd then .error errNoValidFields
  else .ok (applyBidUpdates id upd db)

/-! ## Bid deletion: DELETE /api/bids/[id] -/

/-- DELETE /api/bids/[id] handler: bearer token, bid lookup, then the bid's own
upholsterer or the product creator may delete; no guard on the bid's status. -/
def deleteBid (verify : String → Option DecodedToken) (tokenHeader : Option String)
    (id : String) (db : DB) : Except ErrResp DB :=
  match tokenHeader with
  | none => .error errTokenRequired
  | some token =>
  match verify token with
  | none => .error errInvalidToken
  | some decoded =>
  match findBid db id with
  | none => .error errBidNotFound
  | some bid =>
  match findProduct db bid.productId with
  | none => .error errInternal
  | some product =>
  if bid.upholstererId ≠ decoded.userId ∧ product.creatorId ≠ decoded.userId then
    .error errNotAuthorizedDeleteBid
  else
    .ok { db with bids := db.bids.filter (fun b => !(b.id == id)) }

/-! ## Conversations -/

/-- Parsed JSON body of POST /api/conversations. -/
structure CreateConversationBody where
  userName : Option String
  userPhone : Option String
  initialMessage : Option String
deriving Repr, DecidableEq

/-- POST /api/conversations handler. The token is optional: a present token
is verified, and on success its userId is attached; a missing or invalid
token leaves `userId` null (the handler never returns 401 here). Requires a
truthy `initialMessage`, then creates the conversation and its first message
(isUser fixed to true) in one `prisma.$transaction`. The stored optional
fields go through `x || undefined`, so empty strings are stored as null. -/
def createConversation (verify : String → Option DecodedToken)
    (tokenHeader : Option String) (body : CreateConversationBody)
    (newConvId newMsgId : String) (now : Nat) (db : DB) :
    Except ErrResp (DB × Conversation × Message) :=
  let userId : Option String :=
    match tokenHeader with
    | some token =>
      match verify token with
      | some decoded => some decoded.userId
      | none => none
    | none => none
  if ¬ truthyStr body.initialMessage then .error errInitialMessageRequired
  else
    let conv : Conversation :=
      { id := newConvId,
        userId := if truthyStr userId then userId else none,
        userName := if truthyStr body.userName then body.userName else none,
        userPhone := if truthyStr body.userPhone then body.userPhone else none,
        updatedAt := now }
    let msg : Message :=
      { id := newMsgId, conversationId := newConvId,
        content := body.initialMessage.getD "", isUser := true, createdAt := now }
    .ok ({ db with conversations := conv :: db.conversations,
                   messages := msg :: db.messages }, conv, msg)

/-- POST /api/conversations/[id]/messages handler: requires the conversation
to exist (404 otherwise) and truthy content (400 otherwise), then inserts the
message and bumps the conversation's `updatedAt` in one `prisma.$transaction`. -/
def appendMessage (db : DB) (id : String) (content : String) (isUser : Bool)
    (newMsgId : String) (now : Nat) : Except ErrResp (DB × Message) :=
  match findConversation db id with
  | none => .error errConversationNotFound
  | some _ =>
  if content == "" then .error errMessageContentRequired
  else
    let msg : Message :=
      { id := newMsgId, conversationId := id, content := content,
        isUser := isUser, createdAt := now }
    .ok ({ db with
           messages := msg :: db.messages,
           conversations := db.conversations.map (fun c =>
             if c.id == id then { c with updatedAt := now } else c) }, msg)

/-- Insert a message into a list kept in descending `createdAt` order. -/
def insertDesc (m : Message) : List Message → List Message
  | [] => [m]
  | x :: xs =>
    if x.createdAt ≤ m.createdAt then m :: x :: xs
    else x :: insertDesc m xs

/-- `orderBy: { createdAt: 'desc' }` realised as an insertion sort. -/
def sortByCreatedAtDesc : List Message → List Message
  | [] => []
  | x :: xs => insertDesc x (sortByCreatedAtDesc xs)

/-- The optional `createdAt < before` clause of the message-listing query. -/
def beforeFilter (before : Option Nat) (m : Message) : Bool :=
  match before with
  | some t => decide (m.createdAt < t)
  | none => true

/-- GET /api/conversations/[id]/messages handler: 404 when the conversation
is missing, otherwise the messages of the conversation, optionally strictly
older than `before`, newest first, truncated to `limit` (`take`). -/
def listMessages (db : DB) (id : String) (limit : Nat) (before : Option Nat) :
    Except ErrResp (List Message) :=
  match findConversation db id with
  | none => .error errConversationNotFound
  | some _ =>
    let msgs := db.messages.filter (fun m =>
      m.conversationId == id && beforeFilter before m)
    .ok ((sortByCreatedAtDesc msgs).take limit)

/-- DELETE /api/conversations/[id] handler: bearer token required; a
conversation with a truthy `userId` may only be deleted by that user; then
all its messages and the conversation row are deleted in one
`prisma.$transaction`. -/
def deleteConversation (verify : String → Option DecodedToken)
    (tokenHeader : Option String) (id : String) (db : DB) : Except ErrResp DB :=
  match tokenHeader with
  | none => .error errTokenRequired
  | some token =>
  match verify token with
  | none => .error errInvalidToken
  | some decoded =>
  match findConversation db id with
  | none => .error errConversationNotFound
  | some conv =>
  if truthyStr conv.userId && !(conv.userId == some decoded.userId) then
    .error errNotAuthorizedDeleteConversation
  else
    .ok { db with
          messages := db.messages.filter (fun m => !(m.conversationId == id)),
          conversations := db.conversations.filter (fun c => !(c.id == id)) }

/-! ## Product update: PUT /api/products/[id] -/

/-- Parsed JSON body of PUT /api/products/[id]. -/
structure ProductUpdateBody where
  title : Option String
  description : Option String
  price : Option Int
  imageUrl : Option String
  status : Option String
deriving Repr, DecidableEq

/-- The `updateData` merge of the products PUT handler applied to the row:
truthy strings overwrite; `price !== undefined` overwrites with
`price ? parseFloat(price) : null`, so a present price of 0 stores null. -/
def applyProductUpdate (body : ProductUpdateBody) (p : Product) : Product :=
  { p with
    title := if truthyStr body.title then body.title.getD p.title else p.title,
    description := if truthyStr body.description then body.description else p.description,
    price := match body.price with
             | none => p.price
             | some v => if v ≠ 0 then some v else none,
    imageUrl := if truthyStr body.imageUrl then body.imageUrl else p.imageUrl,
    status := if truthyStr body.status then body.status.getD p.status else p.status }

/-- PUT /api/products/[id] handler: bearer token, product lookup, creator-only
guard, then the merged update is written (no empty-update guard here). -/
def updateProduct (verify : String → Option DecodedToken)
    (tokenHeader : Option String) (id : String) (body : ProductUpdateBody)
    (db : DB) : Except ErrResp DB :=
  match tokenHeader with
  | none => .error errTokenRequired
  | some token =>
  match verify token with
  | none => .error errInvalidToken
  | some decoded =>
  match findProduct db id with
  | none => .error errProductNotFound
  | some product =>
  if product.creatorId ≠ decoded.userId then .error errNotAuthorizedUpdateProduct
  else
    .ok { db with products := db.products.map (fun p =>
            if p.id == id then applyProductUpdate body p else p) }

/-! ## Invariants and reachability for the bid operations -/

/-- Number of accepted bids a product has in the store. -/
def acceptedOn (db : DB) (p : String) : Nat :=
  db.bids.countP (fun b => b.productId == p && b.status == "accepted")

/-- At most one accepted bid per product. -/
def AtMostOneAccepted (db : DB) : Prop :=
  ∀ p, acceptedOn db p ≤ 1

/-- Primary-key integrity of the bids table: ids are pairwise distinct. -/
def BidsNodup (db : DB) : Prop :=
  (db.bids.map (fun b => b.id)).Nodup

/-- One completed bid operation (createBid, updateBid or deleteBid run to
completion). The freshness premise on `create` models the database generating
a previously unused UUID primary key. -/
inductive BidStep : DB → DB → Prop where
  | create (verify : String → Option DecodedToken) (tokenHeader : Option String)
      (body : CreateBidBody) (newId : String) (db db' : DB) (bid : Bid)
      (hfresh : ∀ b ∈ db.bids, b.id ≠ newId)
      (h : createBid verify tokenHeader body newId db = .ok (db', bid)) :
      BidStep db db'
  | update (verify : String → Option DecodedToken) (tokenHeader : Option String)
      (id : String) (body : BidUpdateBody) (db db' : DB)
      (h : updateBid verify tokenHeader id body db = .ok db') :
      BidStep db db'
  | del (verify : String → Option DecodedToken) (tokenHeader : Option String)
      (id : String) (db db' : DB)
      (h : deleteBid verify tokenHeader id db = .ok db') :
      BidStep db db'

/-! ## Sample database used to exercise the handlers on concrete inputs -/

/-- Token verifier resolving every token to upholsterer u1. -/
def vUph1 : String → Option DecodedToken := fun _ => some ⟨"u1", "upholsterer"⟩

/-- Token verifier resolving every token to upholsterer u3. -/
def vUph3 : String → Option DecodedToken := fun _ => some ⟨"u3", "upholsterer"⟩

/-- Token verifier resolving every token to the product creator c. -/
def vCreator : String → Option DecodedToken := fun _ => some ⟨"c", "client"⟩

def exProduct : Product := ⟨"P1", "c", "Chair", none, none, none, "ai-generated"⟩
def exBid1 : Bid := ⟨"B1", "P1", "u1", 100, none, "pending"⟩
def exBid2 : Bid := ⟨"B2", "P1", "u2", 120, none, "pending"⟩
def exDB : DB := ⟨[exProduct], [exBid1, exBid2], [], []⟩

/-- Variant of the sample store in which B1 has already been accepted. -/
def exBid1Acc : Bid := ⟨"B1", "P1", "u1", 100, none, "accepted"⟩
def exDBAcc : DB := ⟨[exProduct], [exBid1Acc, exBid2], [], []⟩

def exConv : Conversation := ⟨"C1", some "u9", none, none, 5⟩
def exMsg1 : Message := ⟨"M1", "C1", "hello", true, 3⟩
def exDBConv : DB := ⟨[], [], [exConv], [exMsg1]⟩

/-! ## Helper lemmas -/

/-- `find?` commutes with a map that leaves the tested key unchanged. -/
theorem find?_map_pres {α : Type} (f : α → α) (q : α → Bool) (l : List α)
    (h : ∀ a, q (f a) = q a) :
    (l.map f).find? q = (l.find? q).map f := by
  induction l with
  | nil => rfl
  | cons a t ih =>
    by_cases hqa : q a = true
    · simp [List.find?_cons, h a, hqa]
    · simp [List.find?_cons, h a, hqa, ih]

/-- Rows with pairwise distinct ids are determined by their id. -/
theorem eq_of_nodup_ids {l : List Bid} (h : (l.map (fun b => b.id)).Nodup)
    {a b : Bid} (ha : a ∈ l) (hb : b ∈ l) (hab : a.id = b.id) : a = b := by
  induction l with
  | nil => cases ha
  | cons c t ih =>
    simp only [List.map_cons, List.nodup_cons, List.mem_map] at h
    rcases List.mem_cons.mp ha with rfl | ha' <;>
      rcases List.mem_cons.mp hb with rfl | hb'
    · rfl
    · exact absurd ⟨b, hb', hab.symm⟩ h.1
    · exact absurd ⟨a, ha', hab⟩ h.1
    · exact ih h.2 ha' hb'

/-- A list with pairwise distinct ids holds at most one row with a given id. -/
theorem countP_key_le_one (l : List Bid) (h : (l.map (fun b => b.id)).Nodup)
    (tid : String) : l.countP (fun b => b.id == tid) ≤ 1 := by
  induction l with
  | nil => simp
  | cons a t ih =>
    simp only [List.map_cons, List.nodup_cons, List.mem_map] at h
    by_cases ha : a.id = tid
    · rw [List.countP_cons_of_pos _ _ (by simpa using ha)]
      have hz : t.countP (fun b => b.id == tid) = 0 := by
        rw [List.countP_eq_zero]
        intro b hb
        simp only [beq_iff_eq]
        intro hbid
        exact h.1 ⟨b, hb, by rw [hbid, ha]⟩
      omega
    · rw [List.countP_cons_of_neg _ _ (by simpa using ha)]
      exact ih h.2

/-- Counting accepted bids of a product cannot grow under a row map that
preserves `productId` and never introduces acceptance. -/
theorem countAccepted_map_le (l : List Bid) (f : Bid → Bid)
    (hpid : ∀ b ∈ l, (f b).productId = b.productId)
    (hacc : ∀ b ∈ l, (f b).status = "accepted" → b.status = "accepted")
    (p : String) :
    (l.map f).countP (fun b => b.productId == p && b.status == "accepted") ≤
      l.countP (fun b => b.productId == p && b.status == "accepted") := by
  rw [List.countP_map]
  apply List.countP_mono_left
  intro b hb hcomp
  simp only [Function.comp_apply, Bool.and_eq_true, beq_iff_eq] at hcomp ⊢
  exact ⟨(hpid b hb) ▸ hcomp.1, hacc b hb hcomp.2⟩

theorem applyBidUpdate_id (u : BidUpdateData) (b : Bid) :
    (applyBidUpdate u b).id = b.id := rfl

theorem applyBidUpdate_productId (u : BidUpdateData) (b : Bid) :
    (applyBidUpdate u b).productId = b.productId := rfl

/-! ## Claim theorems -/

/-- C9: `createConversation` presented with an invalid, expired, or mis-signed
bearer token does not fail Unauthorized; it behaves exactly as if no token
were supplied, creating the conversation as anonymous together with its
initial message: for every request body the result is identical whether the
Authorization header carries a bad token or none at all. -/
theorem c9_createConversation_bad_token_eq_none
    (verify : String → Option DecodedToken) (tok : String)
    (body : CreateConversationBody) (newConvId newMsgId : String) (now : Nat)
    (db : DB) (hbad : verify tok = none) :
    createConversation verify (some tok) body newConvId newMsgId now db =
      createConversation verify none body newConvId newMsgId now db := by
  simp only [createConversation, hbad]

/-- Witness for C9 at a concrete bad-token request. -/
theorem c9_witness :
    createConversation (fun _ => none) (some "garbage")
        ⟨some "Ann", none, some "hello"⟩ "C9c" "C9m" 7 exDB =
      createConversation (fun _ => none) none
        ⟨some "Ann", none, some "hello"⟩ "C9c" "C9m" 7 exDB :=
  c9_createConversation_bad_token_eq_none (fun _ => none) "garbage"
    ⟨some "Ann", none, some "hello"⟩ "C9c" "C9m" 7 exDB rfl

/-- C10: in the product update by the product's creator, a supplied price of 0
stores null (clears the stored price), a supplied non-zero price stores that
value, and an omitted price leaves the stored price unchanged. -/
theorem c10_updateProduct_price
    (verify : String → Option DecodedToken) (tok id : String)
    (body : ProductUpdateBody) (db : DB) (decoded : DecodedToken)
    (product : Product)
    (hv : verify tok = some decoded)
    (hp : findProduct db id = some product)
    (hc : product.creatorId = decoded.userId) :
    ∃ dbA, updateProduct verify (some tok) id body db = .ok dbA ∧
      findProduct dbA id = some (applyProductUpdate body product) ∧
      (body.price = none → (applyProductUpdate body product).price = product.price) ∧
      (body.price = some 0 → (applyProductUpdate body product).price = none) ∧
      (∀ v : Int, v ≠ 0 → body.price = some v →
        (applyProductUpdate body product).price = some v) := by
  refine ⟨{ db with products := db.products.map (fun r => if r.id == id then applyProductUpdate body r else r) }, ?_, ?_, ?_, ?_, ?_⟩
  · simp only [updateProduct, hv, hp, hc]
    simp
  · have hp' : db.products.find? (fun r => r.id == id) = some product := hp
    have hid : (product.id == id) = true := by simpa using List.find?_some hp'
    have hpres : ∀ q : Product,
        ((fun r => r.id == id) ((fun r => if r.id == id then applyProductUpdate body r else r) q)) =
          ((fun r => r.id == id) q) := by
      intro q
      by_cases hq : q.id = id <;> simp [hq, applyProductUpdate]
    show (db.products.map fun r => if r.id == id then applyProductUpdate body r else r).find?
        (fun r => r.id == id) = _
    rw [find?_map_pres _ _ _ hpres]
    unfold findProduct at hp
    rw [hp]
    show some (if product.id == id then applyProductUpdate body product else product) =
      some (applyProductUpdate body product)
    rw [if_pos hid]
  · intro h
    simp [applyProductUpdate, h]
  · intro h
    simp [applyProductUpdate, h]
  · intro v hv0 h
    simp [applyProductUpdate, h, hv0]

/-- Witness for C10: the creator sets price 0 on the sample product and the
stored price becomes null; likewise for the other two price cases. -/
theorem c10_witness :
    ∃ dbA, updateProduct vCreator (some "tok") "P1"
        ⟨none, none, some 0, none, none⟩ exDB = .ok dbA ∧
      findProduct dbA "P1" =
        some (applyProductUpdate ⟨none, none, some 0, none, none⟩ exProduct) ∧
      ((⟨none, none, some 0, none, none⟩ : ProductUpdateBody).price = none →
        (applyProductUpdate ⟨none, none, some 0, none, none⟩ exProduct).price = exProduct.price) ∧
      ((⟨none, none, some 0, none, none⟩ : ProductUpdateBody).price = some 0 →
        (applyProductUpdate ⟨none, none, some 0, none, none⟩ exProduct).price = none) ∧
      (∀ v : Int, v ≠ 0 →
        (⟨none, none, some 0, none, none⟩ : ProductUpdateBody).price = some v →
        (applyProductUpdate ⟨none, none, some 0, none, none⟩ exProduct).price = some v) :=
  c10_updateProduct_price vCreator "tok" "P1" ⟨none, none, some 0, none, none⟩
    exDB ⟨"c", "client"⟩ exProduct rfl rfl rfl

/-- The store produced by the C3 failing input: target bid B1 keeps status
pending (only its amount changed), sibling B2 was forced to rejected. -/
def exDBBug : DB :=
  ⟨[exProduct], [⟨"B1", "P1", "u1", 150, none, "pending"⟩,
                 ⟨"B2", "P1", "u2", 120, none, "rejected"⟩], [], []⟩

/-- C3 (refuted by the code, code bug): the bid's own upholsterer u1 updates
bid B1 with a payload carrying `amount` alongside `status = accepted`. The
handler ignores the status field for this caller (B1 stays `pending`), but its
sibling-rejection step tests the request payload (`status === 'accepted'`)
rather than the persisted row, so sibling B2 is forced to `rejected` even
though no bid was accepted — contradicting the handler's own comment
("If the bid is accepted, reject all other bids for this product") and the
claimed frame property. -/
theorem c3_upholsterer_payload_rejects_siblings :
    updateBid vUph1 (some "t") "B1" ⟨some 150, none, some "accepted"⟩ exDB =
      .ok exDBBug ∧
    findBid exDBBug "B1" = some ⟨"B1", "P1", "u1", 150, none, "pending"⟩ ∧
    findBid exDBBug "B2" = some ⟨"B2", "P1", "u2", 120, none, "rejected"⟩ :=
  ⟨rfl, rfl, rfl⟩

/-- C4 counterexample: an own-upholsterer call whose change set contains only
`status`, and a creator call whose change set contains only `amount`, both
fail with the 400 "No valid fields to update" response (the empty-change-set
error), not with a 401 Unauthorized response as the claim states. -/
theorem c4_counterexample :
    updateBid vUph1 (some "t") "B1" ⟨none, none, some "accepted"⟩ exDB =
      .error errNoValidFields ∧
    updateBid vCreator (some "t") "B1" ⟨some 90, none, none⟩ exDB =
      .error errNoValidFields ∧
    errNoValidFields.status = 400 ∧ ¬ errNoValidFields.status = 401 :=
  ⟨rfl, rfl, rfl, by decide⟩

/-- C4 amended: an own-upholsterer call whose change set contains only
`status`, or a creator call whose change set contains only `amount`/`notes`,
ends with the empty effective change set and fails InvalidRequest
(400, "No valid fields to update"), not Unauthorized; the error return
precedes every write, so no field is updated. -/
theorem c4_out_of_scope_fails_invalid_request
    (verify : String → Option DecodedToken) (tok bidId : String)
    (body : BidUpdateBody) (db : DB) (decoded : DecodedToken) (bid : Bid)
    (product : Product)
    (hv : verify tok = some decoded)
    (hb : findBid db bidId = some bid)
    (hp : findProduct db bid.productId = some product) :
    (bid.upholstererId = decoded.userId → body.amount = none → body.notes = none →
      updateBid verify (some tok) bidId body db = .error errNoValidFields) ∧
    (bid.upholstererId ≠ decoded.userId → product.creatorId = decoded.userId →
      truthyStr body.status = false →
      updateBid verify (some tok) bidId body db = .error errNoValidFields) := by
  constructor
  · intro hu ha hn
    simp [updateBid, hv, hb, hp, bidScopeUpdate, hu, ha, hn, emptyUpdate]
  · intro hu hc hs
    simp [updateBid, hv, hb, hp, bidScopeUpdate, hu, hc, hs, emptyUpdate]

/-- Witness for the C4 amended theorem at a concrete input. -/
theorem c4_witness :
    updateBid vUph1 (some "t") "B1" ⟨none, none, some "accepted"⟩ exDB =
      .error errNoValidFields :=
  (c4_out_of_scope_fails_invalid_request vUph1 "t" "B1"
    ⟨none, none, some "accepted"⟩ exDB ⟨"u1", "upholsterer"⟩ exBid1 exProduct
    rfl rfl rfl).1 rfl rfl rfl

/-- C2 counterexample: the creator accepts bid B1 on the sample store. The
state after the `bids.update` call alone — what persists if the later
sibling-rejection `updateMany` fails, the two being separate sequential awaits
with no surrounding transaction — has B1 accepted while sibling B2 is still
pending, so the state the claim calls never observable is observable. -/
theorem c2_counterexample :
    updateBidFirstWriteOnly vCreator (some "t") "B1"
        ⟨none, none, some "accepted"⟩ exDB = .ok exDBAcc ∧
    findBid exDBAcc "B1" = some exBid1Acc ∧ exBid1Acc.status = "accepted" ∧
    findBid exDBAcc "B2" = some exBid2 ∧ exBid2.status = "pending" :=
  ⟨rfl, rfl, rfl, rfl, rfl⟩

/-- C2 amended: the accept-path update and the sibling rejection are two
sequential writes, not one atomic transaction. After the first write alone
(the persisted state if the sibling-rejection write fails) the target bid is
accepted and every other bid keeps its prior row; only the completed run
leaves every other bid on the product rejected. -/
theorem c2_accept_two_writes
    (verify : String → Option DecodedToken) (tok bidId : String)
    (body : BidUpdateBody) (db : DB) (decoded : DecodedToken) (bid : Bid)
    (product : Product)
    (hv : verify tok = some decoded)
    (hb : findBid db bidId = some bid)
    (hp : findProduct db bid.productId = some product)
    (hu : bid.upholstererId ≠ decoded.userId)
    (hc : product.creatorId = decoded.userId)
    (hs : body.status = some "accepted") :
    updateBidFirstWriteOnly verify (some tok) bidId body db =
      .ok (applyBidUpdates bidId ⟨none, none, some "accepted"⟩ db) ∧
    updateBid verify (some tok) bidId body db =
      .ok (rejectSiblings (applyBidUpdates bidId ⟨none, none, some "accepted"⟩ db)
        bid.productId bidId) ∧
    (∀ b ∈ (applyBidUpdates bidId ⟨none, none, some "accepted"⟩ db).bids,
      b.id = bidId → b.status = "accepted") ∧
    (∀ b ∈ db.bids, b.id ≠ bidId →
      b ∈ (applyBidUpdates bidId ⟨none, none, some "accepted"⟩ db).bids) ∧
    (∀ b ∈ (rejectSiblings (applyBidUpdates bidId ⟨none, none, some "accepted"⟩ db)
        bid.productId bidId).bids,
      b.productId = bid.productId → b.id ≠ bidId → b.status = "rejected") := by
  refine ⟨?_, ?_, ?_, ?_, ?_⟩
  · simp [updateBidFirstWriteOnly, hv, hb, hp, bidScopeUpdate, hu, hc, hs,
      emptyUpdate, truthyStr]
  · simp [updateBid, hv, hb, hp, bidScopeUpdate, hu, hc, hs, emptyUpdate, truthyStr]
  · intro b hbm hid
    rcases List.mem_map.mp hbm with ⟨a, _, rfl⟩
    by_cases ha : a.id = bidId
    · simp [ha, applyBidUpdate]
    · simp [ha] at hid
  · intro b hbm hid
    have : (if b.id == bidId then applyBidUpdate ⟨none, none, some "accepted"⟩ b else b) = b := by
      simp [hid]
    exact this ▸ List.mem_map_of_mem _ hbm
  · intro b hbm hpid hid
    rcases List.mem_map.mp hbm with ⟨x, hx, rfl⟩
    by_cases hcond : (x.productId == bid.productId && !(x.id == bidId)) = true
    · rw [if_pos hcond]
    · rw [if_neg hcond] at hpid hid ⊢
      exact absurd (by simp [hpid, hid]) hcond

/-- Witness for the C2 amended theorem at a concrete input. -/
theorem c2_witness :
    updateBidFirstWriteOnly vCreator (some "t") "B1"
        ⟨none, none, some "accepted"⟩ exDB =
      .ok (applyBidUpdates "B1" ⟨none, none, some "accepted"⟩ exDB) :=
  (c2_accept_two_writes vCreator "t" "B1" ⟨none, none, some "accepted"⟩ exDB
    ⟨"c", "client"⟩ exBid1 exProduct rfl rfl rfl (by decide) rfl rfl).1

/-- C5: for every upholsterer principal and every existing product with status
exactly `ai-generated` on which that upholsterer has no existing bid (and a
well-formed request: truthy productId and amount), createBid succeeds,
inserts a bid with status `pending`, leaves the products table (hence the
product's status) unchanged, and a second createBid by the same upholsterer
on the same product fails with the duplicate-bid error (the Conflict case of
the error taxonomy, HTTP 400 "You have already bid on this product") and
inserts nothing. -/
theorem c5_createBid_spec
    (verify : String → Option DecodedToken) (tok : String) (body : CreateBidBody)
    (newId : String) (db : DB) (decoded : DecodedToken) (product : Product)
    (hv : verify tok = some decoded)
    (hrole : decoded.role = "upholsterer")
    (hpid : ¬ body.productId = "")
    (hamt : ¬ body.amount = 0)
    (hprod : findProduct db body.productId = some product)
    (hstat : product.status = "ai-generated")
    (hnobid : ∀ b ∈ db.bids,
      ¬ (b.productId = body.productId ∧ b.upholstererId = decoded.userId)) :
    createBid verify (some tok) body newId db =
      .ok ({ db with bids := newPendingBid body decoded.userId newId :: db.bids },
           newPendingBid body decoded.userId newId) ∧
    (newPendingBid body decoded.userId newId).status = "pending" ∧
    ({ db with bids := newPendingBid body decoded.userId newId :: db.bids } : DB).products
      = db.products ∧
    (∀ (body2 : CreateBidBody) (newId2 : String),
      body2.productId = body.productId → ¬ body2.amount = 0 →
      createBid verify (some tok) body2 newId2
          { db with bids := newPendingBid body decoded.userId newId :: db.bids } =
        .error errAlreadyBid) := by
  have hfind : db.bids.find? (fun b =>
      b.productId == body.productId && b.upholstererId == decoded.userId) = none := by
    rw [List.find?_eq_none]
    intro b hb
    simp only [Bool.and_eq_true, beq_iff_eq, not_and]
    intro h1 h2
    exact hnobid b hb ⟨h1, h2⟩
  refine ⟨?_, rfl, rfl, ?_⟩
  · simp [createBid, hv, isUpholsterer, hrole, hpid, hamt, hprod, hstat, hfind,
      newPendingBid]
  · intro body2 newId2 h2pid h2amt
    simp [createBid, hv, isUpholsterer, hrole, h2pid, hpid, h2amt, hstat,
      newPendingBid, findProduct] at hprod ⊢
    simp [hprod, hstat]

/-- Witness for C5 at a concrete input: upholsterer u3 bids on the sample
ai-generated product. -/
theorem c5_witness :
    createBid vUph3 (some "t") ⟨"P1", 80, none⟩ "B3" exDB =
      .ok ({ exDB with bids := newPendingBid ⟨"P1", 80, none⟩ "u3" "B3" :: exDB.bids },
           newPendingBid ⟨"P1", 80, none⟩ "u3" "B3") :=
  (c5_createBid_spec vUph3 "t" ⟨"P1", 80, none⟩ "B3" exDB ⟨"u3", "upholsterer"⟩
    exProduct rfl rfl (by decide) (by decide) rfl rfl (by decide)).1

/-- C6: deleteBid removes the bid exactly when it exists and the principal is
the bid's own upholsterer or the parent product's creator, with no guard on
the bid's status (the witness deletes an accepted bid); a missing bid fails
NotFound, any other principal fails Unauthorized and the store is untouched
(the error return precedes the delete call). -/
theorem c6_deleteBid_spec
    (verify : String → Option DecodedToken) (tok bidId : String) (db : DB)
    (decoded : DecodedToken)
    (hv : verify tok = some decoded) :
    (findBid db bidId = none →
      deleteBid verify (some tok) bidId db = .error errBidNotFound) ∧
    (∀ bid product, findBid db bidId = some bid →
      findProduct db bid.productId = some product →
      ((bid.upholstererId = decoded.userId ∨ product.creatorId = decoded.userId) →
        deleteBid verify (some tok) bidId db =
          .ok { db with bids := db.bids.filter (fun b => !(b.id == bidId)) } ∧
        ∀ b ∈ db.bids.filter (fun b => !(b.id == bidId)), ¬ b.id = bidId) ∧
      (bid.upholstererId ≠ decoded.userId → product.creatorId ≠ decoded.userId →
        deleteBid verify (some tok) bidId db = .error errNotAuthorizedDeleteBid)) := by
  constructor
  · intro h
    simp [deleteBid, hv, h]
  · intro bid product hb hp
    constructor
    · intro hauth
      have hng : ¬ (bid.upholstererId ≠ decoded.userId ∧ product.creatorId ≠ decoded.userId) := by
        tauto
      constructor
      · simp only [deleteBid, hv, hb, hp]
        rw [if_neg hng]
      · intro b hbm
        have := (List.mem_filter.mp hbm).2
        simpa using this
    · intro h1 h2
      simp only [deleteBid, hv, hb, hp]
      rw [if_pos ⟨h1, h2⟩]

/-- Witness for C6 at a concrete input: the product creator deletes an
accepted bid. -/
theorem c6_witness :
    deleteBid vCreator (some "t") "B1" exDBAcc =
      .ok { exDBAcc with bids := exDBAcc.bids.filter (fun b => !(b.id == "B1")) } :=
  (((c6_deleteBid_spec vCreator "t" "B1" exDBAcc ⟨"c", "client"⟩ rfl).2
    exBid1Acc exProduct rfl rfl).1 (Or.inr rfl)).1

theorem mem_insertDesc {m x : Message} {l : List Message} :
    x ∈ insertDesc m l ↔ x = m ∨ x ∈ l := by
  induction l with
  | nil => simp [insertDesc]
  | cons y ys ih =>
    by_cases h : y.createdAt ≤ m.createdAt
    · simp [insertDesc, h, List.mem_cons]
    · simp only [insertDesc, if_neg h, List.mem_cons, ih]
      tauto

theorem mem_sortDesc {x : Message} {l : List Message} :
    x ∈ sortByCreatedAtDesc l ↔ x ∈ l := by
  induction l with
  | nil => simp [sortByCreatedAtDesc]
  | cons y ys ih => simp [sortByCreatedAtDesc, mem_insertDesc, ih]

theorem insertDesc_take_one {m : Message} {l : List Message}
    (h : ∀ x ∈ l, x.createdAt ≤ m.createdAt) :
    (insertDesc m l).take 1 = [m] := by
  cases l with
  | nil => rfl
  | cons y ys =>
    simp only [insertDesc]
    rw [if_pos (h y (List.mem_cons_self y ys))]
    rfl

/-- C7: deleteConversation, called by a principal equal to the conversation's
userId (or on an anonymous conversation by any holder of a valid token),
atomically removes every message whose conversationId equals the conversation
id and then the conversation itself (the handler wraps both deletes in one
`prisma.$transaction`, which this single-step function models); messages of
other conversations are untouched, and listMessages for that id afterwards
fails NotFound. -/
theorem c7_deleteConversation_cascade
    (verify : String → Option DecodedToken) (tok cid : String) (db : DB)
    (decoded : DecodedToken) (conv : Conversation)
    (hv : verify tok = some decoded)
    (hc : findConversation db cid = some conv)
    (hauth : conv.userId = none ∨ conv.userId = some decoded.userId) :
    ∃ dbA, deleteConversation verify (some tok) cid db = .ok dbA ∧
      (∀ m ∈ dbA.messages, ¬ m.conversationId = cid) ∧
      (∀ m ∈ db.messages, ¬ m.conversationId = cid → m ∈ dbA.messages) ∧
      findConversation dbA cid = none ∧
      (∀ limit before, listMessages dbA cid limit before =
        .error errConversationNotFound) := by
  refine ⟨{ db with messages := db.messages.filter (fun m => !(m.conversationId == cid)), conversations := db.conversations.filter (fun c => !(c.id == cid)) }, ?_, ?_, ?_, ?_, ?_⟩
  · simp only [deleteConversation, hv, hc]
    rcases hauth with h | h
    · rw [if_neg (by simp [h, truthyStr])]
    · rw [if_neg (by simp [h])]
  · intro m hm
    simpa using (List.mem_filter.mp hm).2
  · intro m hm hne
    exact List.mem_filter.mpr ⟨hm, by simpa using hne⟩
  · rw [show findConversation { db with messages := db.messages.filter (fun m => !(m.conversationId == cid)), conversations := db.conversations.filter (fun c => !(c.id == cid)) } cid = (db.conversations.filter (fun c => !(c.id == cid))).find? (fun c => c.id == cid) from rfl]
    rw [List.find?_eq_none]
    intro c hcm
    simpa using (List.mem_filter.mp hcm).2
  · intro limit before
    have hnone : findConversation { db with messages := db.messages.filter (fun m => !(m.conversationId == cid)), conversations := db.conversations.filter (fun c => !(c.id == cid)) } cid = none := by
      rw [show findConversation { db with messages := db.messages.filter (fun m => !(m.conversationId == cid)), conversations := db.conversations.filter (fun c => !(c.id == cid)) } cid = (db.conversations.filter (fun c => !(c.id == cid))).find? (fun c => c.id == cid) from rfl]
      rw [List.find?_eq_none]
      intro c hcm
      simpa using (List.mem_filter.mp hcm).2
    simp only [listMessages, hnone]

/-- C8: on an existing conversation whose stored messages all predate `now`,
appendMessage with content "hi" followed by listMessages with limit 1 returns
exactly one message — the one just appended — with content "hi" (listing is
newest-first and capped at the limit). -/
theorem c8_append_then_list
    (db : DB) (cid : String) (conv : Conversation) (newMsgId : String) (now : Nat)
    (hc : findConversation db cid = some conv)
    (hold : ∀ m ∈ db.messages, m.conversationId = cid → m.createdAt < now) :
    ∃ dbA, appendMessage db cid "hi" true newMsgId now =
        .ok (dbA, ⟨newMsgId, cid, "hi", true, now⟩) ∧
      listMessages dbA cid 1 none = .ok [⟨newMsgId, cid, "hi", true, now⟩] := by
  refine ⟨{ db with messages := (⟨newMsgId, cid, "hi", true, now⟩ : Message) :: db.messages, conversations := db.conversations.map (fun c => if c.id == cid then { c with updatedAt := now } else c) }, ?_, ?_⟩
  · simp [appendMessage, hc]
  · have hc' : db.conversations.find? (fun c => c.id == cid) = some conv := hc
    have hid : (conv.id == cid) = true := by simpa using List.find?_some hc'
    have hcpres : ∀ c : Conversation,
        ((fun c => c.id == cid) ((fun c => if c.id == cid then { c with updatedAt := now } else c) c)) =
          ((fun c => c.id == cid) c) := by
      intro c
      by_cases h : c.id = cid <;> simp [h]
    have hfc : findConversation { db with messages := (⟨newMsgId, cid, "hi", true, now⟩ : Message) :: db.messages, conversations := db.conversations.map (fun c => if c.id == cid then { c with updatedAt := now } else c) } cid = some { conv with updatedAt := now } := by
      show (db.conversations.map (fun c => if c.id == cid then { c with updatedAt := now } else c)).find? (fun c => c.id == cid) = _
      rw [find?_map_pres _ _ _ hcpres, hc']
      show some (if conv.id == cid then { conv with updatedAt := now } else conv) = _
      rw [if_pos hid]
    simp only [listMessages, hfc, beforeFilter, Bool.and_true]
    rw [List.filter_cons_of_pos (by simp)]
    show Except.ok ((insertDesc ⟨newMsgId, cid, "hi", true, now⟩
      (sortByCreatedAtDesc (db.messages.filter (fun m => m.conversationId == cid)))).take 1) = _
    rw [insertDesc_take_one]
    intro x hx
    have hx' := mem_sortDesc.mp hx
    have hxf := List.mem_filter.mp hx'
    have hxc : x.conversationId = cid := by simpa using hxf.2
    exact le_of_lt (hold x hxf.1 hxc)

/-- Witness for C7 at a concrete input: user u9 deletes their conversation. -/
theorem c7_witness :
    ∃ dbA, deleteConversation (fun _ => some ⟨"u9", "client"⟩) (some "t") "C1" exDBConv = .ok dbA ∧
      (∀ m ∈ dbA.messages, ¬ m.conversationId = "C1") ∧
      (∀ m ∈ exDBConv.messages, ¬ m.conversationId = "C1" → m ∈ dbA.messages) ∧
      findConversation dbA "C1" = none ∧
      (∀ limit before, listMessages dbA "C1" limit before =
        .error errConversationNotFound) :=
  c7_deleteConversation_cascade (fun _ => some ⟨"u9", "client"⟩) "t" "C1" exDBConv
    ⟨"u9", "client"⟩ exConv rfl rfl (Or.inr rfl)

/-- Witness for C8 at a concrete input. -/
theorem c8_witness :
    ∃ dbA, appendMessage exDBConv "C1" "hi" true "M2" 10 =
        .ok (dbA, ⟨"M2", "C1", "hi", true, 10⟩) ∧
      listMessages dbA "C1" 1 none = .ok [⟨"M2", "C1", "hi", true, 10⟩] :=
  c8_append_then_list exDBConv "C1" exConv "M2" 10 rfl (by decide)

/-! ## C1: preservation of the at-most-one-accepted invariant -/

/-- Pointwise-equal functions map lists equally. -/
theorem map_congr_fun {α β : Type} (l : List α) (f g : α → β)
    (h : ∀ a, f a = g a) : l.map f = l.map g := by
  induction l with
  | nil => rfl
  | cons a t ih => simp [h a, ih]

/-- A row map that preserves ids preserves id-nodup. -/
theorem nodupIds_map {l : List Bid} (f : Bid → Bid) (h : ∀ b, (f b).id = b.id)
    (hnd : (l.map (fun b => b.id)).Nodup) :
    ((l.map f).map (fun b => b.id)).Nodup := by
  rw [List.map_map]
  have he : ((fun b => b.id) ∘ f) = fun b : Bid => b.id := funext h
  rw [he]
  exact hnd

/-- Success shape of createBid: the new state conses the pending row. -/
theorem createBid_ok_shape
    (verify : String → Option DecodedToken) (tokenHeader : Option String)
    (body : CreateBidBody) (newId : String) (db db' : DB) (bid : Bid)
    (h : createBid verify tokenHeader body newId db = .ok (db', bid)) :
    db' = { db with bids := bid :: db.bids } ∧
    bid = newPendingBid body (bid.upholstererId) newId := by
  unfold createBid at h
  split at h
  · simp at h
  split at h
  · simp at h
  split at h
  · simp at h
  split at h
  · simp at h
  split at h
  · simp at h
  split at h
  · simp at h
  split at h
  · simp at h
  · rcases h with ⟨rfl, rfl⟩ | _
    · exact ⟨rfl, rfl⟩

/-- The updateData built by the field-scoping logic carries either no status
or the payload status. -/
theorem bidScopeUpdate_status
    (decoded : DecodedToken) (bid : Bid) (creatorId : String)
    (body : BidUpdateBody) (upd : BidUpdateData)
    (h : bidScopeUpdate decoded bid creatorId body = some upd) :
    upd.status = none ∨ upd.status = body.status := by
  unfold bidScopeUpdate at h
  split at h
  · cases h
    exact Or.inl rfl
  split at h
  · cases h
    by_cases ht : truthyStr body.status = true
    · right
      simp [ht]
    · left
      simp [ht]
  · simp at h

/-- Success shape of updateBid: the target row is updated, and the siblings
are rejected exactly when the payload status is `accepted`. -/
theorem updateBid_ok_shape
    (verify : String → Option DecodedToken) (tokenHeader : Option String)
    (id : String) (body : BidUpdateBody) (db db' : DB)
    (h : updateBid verify tokenHeader id body db = .ok db') :
    ∃ bid upd, findBid db id = some bid ∧
      (upd.status = none ∨ upd.status = body.status) ∧
      ((body.status == some "accepted") = true →
        db' = rejectSiblings (applyBidUpdates id upd db) bid.productId id) ∧
      (¬ (body.status == some "accepted") = true →
        db' = applyBidUpdates id upd db) := by
  unfold updateBid at h
  split at h
  · simp at h
  split at h
  · simp at h
  split at h
  · simp at h
  next bid hfind =>
  split at h
  · simp at h
  next product hprod =>
  split at h
  · simp at h
  next decoded upd hscope =>
  split at h
  · simp at h
  split at h
  · next hacc =>
    cases h
    exact ⟨bid, upd, hfind, bidScopeUpdate_status _ _ _ _ _ hscope,
      fun _ => rfl, fun hf => absurd hacc hf⟩
  · next hacc =>
    cases h
    exact ⟨bid, upd, hfind, bidScopeUpdate_status _ _ _ _ _ hscope,
      fun ht => absurd ht hacc, fun _ => rfl⟩

/-- Success shape of deleteBid: the row with the target id is removed. -/
theorem deleteBid_ok_shape
    (verify : String → Option DecodedToken) (tokenHeader : Option String)
    (id : String) (db db' : DB)
    (h : deleteBid verify tokenHeader id db = .ok db') :
    db' = { db with bids := db.bids.filter (fun b => !(b.id == id)) } := by
  unfold deleteBid at h
  split at h
  · simp at h
  split at h
  · simp at h
  split at h
  · simp at h
  split at h
  · simp at h
  split at h
  · simp at h
  · cases h
    rfl

/-- A target-row update whose updateData does not set status to `accepted`
cannot increase the number of accepted bids of any product. -/
theorem atMostOne_applyBidUpdates (db : DB) (id : String) (upd : BidUpdateData)
    (hs : ∀ s, upd.status = some s → ¬ s = "accepted")
    (hinv : AtMostOneAccepted db) :
    AtMostOneAccepted (applyBidUpdates id upd db) := by
  intro p
  unfold acceptedOn applyBidUpdates
  refine le_trans (countAccepted_map_le _ _ ?_ ?_ p) (hinv p)
  · intro b _
    by_cases hb : b.id = id <;> simp [hb, applyBidUpdate]
  · intro b _ hacc
    by_cases hb : b.id = id
    · rw [if_pos (show (b.id == id) = true by simpa using hb)] at hacc
      cases hu : upd.status with
      | none => simpa [applyBidUpdate, hu] using hacc
      | some s =>
        simp only [applyBidUpdate, hu, Option.getD_some] at hacc
        exact absurd hacc (hs s hu)
    · rwa [if_neg (show ¬ (b.id == id) = true by simpa using hb)] at hacc

/-- After the accept path (target update followed by sibling rejection), every
product still has at most one accepted bid: on the target's product only the
target row can be accepted (its id is unique), and other products keep a
subset of their previously accepted rows. -/
theorem atMostOne_accept (db : DB) (id : String) (bid : Bid) (upd : BidUpdateData)
    (hnd : BidsNodup db) (hinv : AtMostOneAccepted db)
    (hfind : findBid db id = some bid) :
    AtMostOneAccepted (rejectSiblings (applyBidUpdates id upd db) bid.productId id) := by
  have hbidmem : bid ∈ db.bids := List.mem_of_find?_eq_some hfind
  have hbidid : bid.id = id := by
    have := List.find?_some (show db.bids.find? (fun b => b.id == id) = some bid from hfind)
    simpa using this
  have hcomp : (rejectSiblings (applyBidUpdates id upd db) bid.productId id).bids =
      db.bids.map (fun b =>
        if b.id == id then applyBidUpdate upd b
        else if b.productId == bid.productId then { b with status := "rejected" } else b) := by
    show (db.bids.map _).map _ = _
    rw [List.map_map]
    apply map_congr_fun
    intro b
    by_cases hb : b.id = id
    · simp [Function.comp, hb, applyBidUpdate]
    · by_cases hbp : b.productId = bid.productId <;> simp [Function.comp, hb, hbp]
  intro p
  unfold acceptedOn
  rw [hcomp, List.countP_map]
  by_cases hp : p = bid.productId
  · refine le_trans (List.countP_mono_left ?_) (countP_key_le_one db.bids hnd id)
    intro b hb hpred
    simp only [Function.comp_apply] at hpred
    by_cases hbid : b.id = id
    · simpa using hbid
    · rw [if_neg (show ¬ (b.id == id) = true by simpa using hbid)] at hpred
      by_cases hbp : b.productId = bid.productId
      · rw [if_pos (show (b.productId == bid.productId) = true by simpa using hbp)] at hpred
        simp at hpred
      · rw [if_neg (show ¬ (b.productId == bid.productId) = true by simpa using hbp)] at hpred
        exfalso
        apply hbp
        have hb1 : b.productId = p := by
          simp only [Bool.and_eq_true, beq_iff_eq] at hpred
          exact hpred.1
        rw [hb1]
        exact hp
  · refine le_trans (List.countP_mono_left ?_) (hinv p)
    intro b hb hpred
    simp only [Function.comp_apply] at hpred
    by_cases hbid : b.id = id
    · have hbeq : b = bid := eq_of_nodup_ids hnd hb hbidmem (by rw [hbid, hbidid])
      rw [if_pos (show (b.id == id) = true by simpa using hbid)] at hpred
      exfalso
      apply hp
      have h1 : (applyBidUpdate upd b).productId = p := by
        simp only [Bool.and_eq_true, beq_iff_eq] at hpred
        exact hpred.1
      rw [applyBidUpdate_productId] at h1
      rw [← h1, hbeq]
    · rw [if_neg (show ¬ (b.id == id) = true by simpa using hbid)] at hpred
      by_cases hbp : b.productId = bid.productId
      · rw [if_pos (show (b.productId == bid.productId) = true by simpa using hbp)] at hpred
        simp at hpred
      · rw [if_neg (show ¬ (b.productId == bid.productId) = true by simpa using hbp)] at hpred
        exact hpred

/-- One completed bid operation preserves primary-key integrity and the
at-most-one-accepted-bid-per-product invariant. -/
theorem bidStep_preserves (db db' : DB) (hstep : BidStep db db')
    (hnd : BidsNodup db) (hinv : AtMostOneAccepted db) :
    BidsNodup db' ∧ AtMostOneAccepted db' := by
  cases hstep with
  | create verify th body newId dbx dby bid hfresh h =>
    obtain ⟨rfl, hbid⟩ := createBid_ok_shape _ _ _ _ _ _ _ h
    constructor
    · show ((bid :: db.bids).map (fun b => b.id)).Nodup
      rw [List.map_cons, List.nodup_cons]
      refine ⟨?_, hnd⟩
      intro hmem
      rcases List.mem_map.mp hmem with ⟨b, hbm, hbe⟩
      have hbn : bid.id = newId := by rw [hbid]; rfl
      exact hfresh b hbm (by rw [hbe, hbn])
    · intro p
      show ((bid :: db.bids).countP _) ≤ 1
      rw [List.countP_cons_of_neg]
      · exact hinv p
      · have hps : bid.status = "pending" := by rw [hbid]; rfl
        simp [hps]
  | update verify th id body dbx dby h =>
    obtain ⟨bid, upd, hfind, hstat, hacc, hnacc⟩ := updateBid_ok_shape _ _ _ _ _ _ h
    by_cases hb : (body.status == some "accepted") = true
    · obtain rfl := hacc hb
      constructor
      · have h1 : ((db.bids.map (fun b =>
            if b.id == id then applyBidUpdate upd b else b)).map (fun b => b.id)).Nodup :=
          nodupIds_map _ (fun b => by by_cases hx : b.id = id <;> simp [hx, applyBidUpdate]) hnd
        exact nodupIds_map _ (fun b => by
          by_cases hx : (b.productId == bid.productId && !(b.id == id)) = true <;>
            simp [hx]) h1
      · exact atMostOne_accept db id bid upd hnd hinv hfind
    · obtain rfl := hnacc hb
      constructor
      · exact nodupIds_map _
          (fun b => by by_cases hx : b.id = id <;> simp [hx, applyBidUpdate]) hnd
      · refine atMostOne_applyBidUpdates db id upd ?_ hinv
        intro s hus hse
        rcases hstat with h0 | h0
        · rw [h0] at hus
          cases hus
        · apply hb
          rw [h0] at hus
          simp [hus, hse]
  | del verify th id dbx dby h =>
    obtain rfl := deleteBid_ok_shape _ _ _ _ _ h
    constructor
    · exact List.Nodup.sublist (List.Sublist.map _ (List.filter_sublist _)) hnd
    · intro p
      exact le_trans (List.Sublist.countP_le _ (List.filter_sublist _)) (hinv p)

/-- A store whose bids table has no accepted row satisfies the invariant. -/
theorem atMostOne_of_no_accepted (db : DB)
    (h : ∀ b ∈ db.bids, ¬ b.status = "accepted") : AtMostOneAccepted db := by
  intro p
  unfold acceptedOn
  have hz : db.bids.countP (fun b => b.productId == p && b.status == "accepted") = 0 :=
    List.countP_eq_zero.mpr (fun b hb => by simp [h b hb])
  omega

/-- C1: in any state reachable from a store with distinct bid ids and at most
one accepted bid per product, by any sequence of bid operations run to
completion (createBid inserts only `pending` rows, a completed updateBid that
accepts a bid also rejects all its product siblings, deleteBid only removes
rows), every product still has at most one accepted bid. -/
theorem c1_reachable_at_most_one_accepted (db db' : DB)
    (hnd : BidsNodup db) (hinv : AtMostOneAccepted db)
    (hreach : Relation.ReflTransGen BidStep db db') :
    AtMostOneAccepted db' := by
  suffices h : BidsNodup db' ∧ AtMostOneAccepted db' from h.2
  induction hreach with
  | refl => exact ⟨hnd, hinv⟩
  | tail hab hbc ih => exact bidStep_preserves _ _ hbc ih.1 ih.2

/-- Witness for C1: one concrete createBid step from the sample store. -/
theorem c1_witness :
    BidsNodup exDB ∧ AtMostOneAccepted exDB ∧
    AtMostOneAccepted { exDB with bids := newPendingBid ⟨"P1", 80, none⟩ "u3" "B3" :: exDB.bids } :=
  ⟨by unfold BidsNodup; decide, atMostOne_of_no_accepted exDB (by decide),
    c1_reachable_at_most_one_accepted exDB _ (by unfold BidsNodup; decide)
      (atMostOne_of_no_accepted exDB (by decide))
      (Relation.ReflTransGen.single
        (BidStep.create vUph3 (some "t") ⟨"P1", 80, none⟩ "B3" exDB _
          (newPendingBid ⟨"P1", 80, none⟩ "u3" "B3") (by decide) rfl))⟩
